import Mathlib

/-!
# Verification of the EHR_System core against its specification

Shallow embedding of the repository's core components:

* `src/utils/helpers.py` — EHR validator (`_text_contains_ehr_keywords`,
  `_validate_json_ehr`, `_validate_txt_ehr`, `_validate_pdf_ehr`,
  `validate_ehr_file`), EHR repository (`save_ehr_for_user`), user id
  generation (`generate_user_id`) and the per-user hash chain
  (`save_blockchain_for_user`).
* `src/blockchain/logger.py` — the global hash-chained ledger
  (`BlockchainLogger.log_event`, `_get_last_hash`, `_calculate_hash`,
  `get_user_logs`).
* `src/app.py` — `AuthSystem.register_user`, `AuthSystem.login_password`,
  `is_admin`.

Python's `hashlib.sha256(...).hexdigest()` is modelled as an explicit
function parameter `h : String → String`: every theorem below is proved for
an arbitrary hash function, with tamper-detection statements carrying an
explicit no-collision hypothesis in place of SHA-256's collision
resistance.  File-system reads are modelled by passing the file's observable
content (parse result, text, extracted PDF text) in a `PyFile` record, and
the stateful stores (users registry, ledger file, per-user chain file, EHR
folder) as explicit values threaded through the operations.
-/

namespace EHRSys

/-! ## String helpers shared by the embedded functions -/

/-- Python `str.lower()` (ASCII case mapping, which is all the repository's
keyword sets and email comparisons use). -/
def lowerStr (s : String) : String :=
  String.mk (s.toList.map Char.toLower)

/-- `pat` is a leading block of `s` (helper for the substring test). -/
def charListLeads (pat s : List Char) : Bool :=
  match pat, s with
  | [], _ => true
  | _ :: _, [] => false
  | p :: ps, c :: cs => p == c && charListLeads ps cs

/-- `pat` occurs contiguously somewhere in `s`. -/
def charListInfix (pat : List Char) : List Char → Bool
  | [] => charListLeads pat []
  | c :: cs => charListLeads pat (c :: cs) || charListInfix pat (c :: cs).tail

/-- Python's substring test `kw in t`. -/
def pyIn (kw t : String) : Bool :=
  charListInfix kw.toList t.toList

/-- ASCII whitespace as Python `str.strip()` removes it. -/
def isPySpace (c : Char) : Bool :=
  c == ' ' || c == '\t' || c == '\n' || c == '\r' || c == '\x0b' || c == '\x0c'

/-- Python `str.strip()` (whitespace at both ends). -/
def pyStrip (s : String) : String :=
  String.mk (((s.toList.dropWhile isPySpace).reverse.dropWhile isPySpace).reverse)

/-- Last `/`-separated component of a path: `pathlib.Path(p).name` for the
ordinary file paths the repository passes around. -/
def pyName (p : String) : String :=
  String.mk (p.toList.foldl (fun acc c => if c == '/' then [] else acc ++ [c]) [])

/-- Index of the last `.` in a character list, if any. -/
def lastDotIdx (cs : List Char) : Option Nat :=
  (cs.enum.filter (fun ic => ic.2 == '.')).getLast?.map (fun ic => ic.1)

/-- `pathlib.Path(p).suffix`: the extension (with dot) of the final path
component; empty when the only dot is leading or trailing (CPython:
`name[i:]` when `0 < i < len(name) - 1`). -/
def pySuffix (p : String) : String :=
  let nm := (pyName p).toList
  match lastDotIdx nm with
  | none => ""
  | some i => if 0 < i ∧ i < nm.length - 1 then String.mk (nm.drop i) else ""

/-! ## Parsed JSON values

Model of the values `json.load` produces for the repository's inputs
(floats are not used by any claim and are omitted). -/

inductive Json where
  | null : Json
  | bool : Bool → Json
  | num : Int → Json
  | str : String → Json
  | arr : List Json → Json
  | obj : List (String × Json) → Json

/-- JSON string escaping as `json.dumps` performs it for the ASCII strings
the repository handles (backslash and double quote). -/
def jsonEscape (s : String) : String :=
  s.toList.foldl (fun acc c =>
    if c = '\\' then acc ++ "\\\\"
    else if c = '"' then acc ++ "\\\""
    else acc.push c) ""

/-- A JSON string literal with surrounding quotes. -/
def jsonQuote (s : String) : String := "\"" ++ jsonEscape s ++ "\""

mutual

/-- Python `json.dumps(data)` with the default separators `", "` and `": "`,
keys in insertion order (no `sort_keys`). -/
def Json.dumps : Json → String
  | .null => "null"
  | .bool b => if b then "true" else "false"
  | .num n => toString n
  | .str s => jsonQuote s
  | .arr xs => "[" ++ Json.dumpsArr xs ++ "]"
  | .obj kvs => "\x7b" ++ Json.dumpsObj kvs ++ "\x7d"

/-- Comma-joined serialization of an array's elements. -/
def Json.dumpsArr : List Json → String
  | [] => ""
  | [x] => Json.dumps x
  | x :: y :: xs => Json.dumps x ++ ", " ++ Json.dumpsArr (y :: xs)

/-- Comma-joined serialization of an object's key/value pairs. -/
def Json.dumpsObj : List (String × Json) → String
  | [] => ""
  | [(k, v)] => jsonQuote k ++ ": " ++ Json.dumps v
  | (k, v) :: kv :: kvs => jsonQuote k ++ ": " ++ Json.dumps v ++ ", " ++ Json.dumpsObj (kv :: kvs)

end

/-! ## EHR validation (`src/utils/helpers.py`, lines 78–158)

A candidate file is modelled by what the validator can observe of it:
its path (for the extension dispatch), whether it exists as a regular
file, the result of parsing it as JSON (`none` = `JSONDecodeError` or
unreadable), its text content as read with `errors="ignore"`, and the
text PyPDF2 extracts from its first three pages (`none` = PyPDF2 absent
or extraction failure, the fail-closed branch). -/

structure PyFile where
  path : String
  isFile : Bool
  jsonData : Option Json
  text : String
  pdfText : Option String

/-- `_EHR_REQUIRED_FIELDS = {"name", "address", "genotype", "bloodgroup"}`
(helpers.py line 78).  A Lean list stands in for the Python set; every use
below is order-independent. -/
def EHR_REQUIRED_FIELDS : List String := ["name", "address", "genotype", "bloodgroup"]

/-- `_text_contains_ehr_keywords` (helpers.py lines 80–91): lowercase the
text, count how many of the required keywords occur as substrings, require
at least two. -/
def text_contains_ehr_keywords (text : String) : Bool :=
  let t := lowerStr text
  2 ≤ EHR_REQUIRED_FIELDS.countP (fun kw => pyIn kw t)

/-- `_validate_json_ehr` (helpers.py lines 94–108) applied to the parse
result: on a JSON object, accept when the lowered top-level key set meets
`_EHR_REQUIRED_FIELDS` (`_EHR_REQUIRED_FIELDS & keys`), else fall back to
the keyword heuristic over `json.dumps(data).lower()`; non-objects and
parse failures are rejected. -/
def validate_json_ehr (parsed : Option Json) : Bool :=
  match parsed with
  | none => false
  | some data =>
    match data with
    | .obj kvs =>
      let keys := kvs.map (fun kv => lowerStr kv.1)
      if EHR_REQUIRED_FIELDS.any (fun k => keys.contains k) then true
      else text_contains_ehr_keywords (lowerStr (Json.dumps (.obj kvs)))
    | _ => false

/-- Python `s[:n]` / `f.read(n)` in text mode: the first `n` characters. -/
def pyTake (n : Nat) (s : String) : String :=
  String.mk (s.toList.take n)

/-- `_validate_txt_ehr` (helpers.py lines 111–117): keyword heuristic over
the first 8192 characters (`f.read(8192)`). -/
def validate_txt_ehr (content : String) : Bool :=
  text_contains_ehr_keywords (pyTake 8192 content)

/-- `_validate_pdf_ehr` (helpers.py lines 120–138): reject when no
extracted text is available (PyPDF2 missing, or the reader raised);
otherwise apply the keyword heuristic to the joined text of the first
three pages. -/
def validate_pdf_ehr (extracted : Option String) : Bool :=
  match extracted with
  | none => false
  | some joined => text_contains_ehr_keywords joined

/-- `validate_ehr_file` (helpers.py lines 141–158): existence check, then
dispatch on the lowercased extension — `.json` structured validation,
`.txt`/`.md`/`.csv` text heuristic, `.pdf` extraction heuristic, anything
else rejected. -/
def validate_ehr_file (f : PyFile) : Bool :=
  if !f.isFile then false
  else
    let sfx := lowerStr (pySuffix f.path)
    if sfx == ".json" then validate_json_ehr f.jsonData
    else if sfx == ".txt" || sfx == ".md" || sfx == ".csv" then validate_txt_ehr f.text
    else if sfx == ".pdf" then validate_pdf_ehr f.pdfText
    else false

/-! ## EHR repository (`save_ehr_for_user`, helpers.py lines 161–183)

The per-user namespace `data/ehr_files/<user_id>/` is modelled as a list of
`(user_id, file name, source file snapshot)` entries; `shutil.copy`
overwrites a same-named destination, so `storePut` replaces an existing
`(user, name)` entry and appends otherwise. -/

inductive SaveError where
  /-- the `ValueError` raised when validation fails (helpers.py line 168) -/
  | validationRejected (msg : String)
  /-- the `OSError` class a failing `mkdir`/`shutil.copy` would raise -/
  | ioError (msg : String)

structure EhrStore where
  files : List (String × String × PyFile)

/-- Overwrite-or-append a copy of `f` as `(uid, fname)`. -/
def storePut (files : List (String × String × PyFile)) (uid fname : String) (f : PyFile) :
    List (String × String × PyFile) :=
  if files.any (fun e => e.1 == uid && e.2.1 == fname) then
    files.map (fun e => if e.1 == uid && e.2.1 == fname then (uid, fname, f) else e)
  else files ++ [(uid, fname, f)]

/-- `save_ehr_for_user` (helpers.py lines 161–174): validate first and raise
`ValueError` — touching nothing — when validation fails; otherwise copy the
source file into the user's folder under its original name and return the
destination path. -/
def save_ehr_for_user (uid : String) (f : PyFile) (st : EhrStore) :
    EhrStore × Except SaveError String :=
  if !validate_ehr_file f then
    (st, .error (.validationRejected
      "EHR validation failed. The uploaded file does not contain required EHR fields."))
  else
    let fname := pyName f.path
    (⟨storePut st.files uid fname f⟩, .ok ("data/ehr_files/" ++ uid ++ "/" ++ fname))

/-- A sequence of `save_ehr_for_user` calls starting from an empty store
(results discarded, state threaded). -/
def runSaves (ops : List (String × PyFile)) : EhrStore :=
  ops.foldl (fun st op => (save_ehr_for_user op.1 op.2 st).1) ⟨[]⟩

/-! ## Identity store (`src/app.py` lines 9–87, helpers.py lines 51–73)

The users dict (`users.json`) is a `List (String × UserRec)` in insertion
order; `AuthSystem.register_user` and `AuthSystem.login_password` are
translated with the SHA-256 digest as the explicit parameter `h` and the
`random.randint(0, 99999)` stream as an explicit `rand : Nat → Nat`
(values taken mod 100000, matching the generator's range). -/

/-- `ADMIN_USERNAME` (app.py line 10). -/
def ADMIN_USERNAME : String := "Admin"

/-- `ADMIN_PASSWORD` (app.py line 11). -/
def ADMIN_PASSWORD : String := "Admin@123"

/-- `is_admin` (app.py lines 14–15). -/
def is_admin (username password : String) : Bool :=
  username == ADMIN_USERNAME && password == ADMIN_PASSWORD

/-- One value of the users dict (app.py lines 43–51); `password` holds the
hex digest `h` of the plaintext, never the plaintext. -/
structure UserRec where
  uname : String
  dob : String
  gender : String
  email : String
  password : String
  biometric_type : String
  fingerprint_path : Option String
deriving DecidableEq

/-- The users registry: `users.json` as an insertion-ordered dict. -/
abbrev Registry := List (String × UserRec)

/-- `f"{n:05d}"` for the generator's range `0 ≤ n ≤ 99999`: the five decimal
digits, zero padded. -/
def pad5 (n : Nat) : String :=
  String.mk [Nat.digitChar (n / 10000 % 10), Nat.digitChar (n / 1000 % 10),
    Nat.digitChar (n / 100 % 10), Nat.digitChar (n / 10 % 10), Nat.digitChar (n % 10)]

/-- Python `s[-5:]`. -/
def lastFive (s : String) : String :=
  String.mk (s.toList.drop (s.length - 5))

/-- The timestamp fallback `str(int(datetime.now().timestamp()))[-5:]`
(helpers.py line 65), with the clock an explicit argument. -/
def fallbackId (ts : Nat) : String := lastFive (Nat.repr ts)

/-- The `while True` loop of `generate_user_id` (helpers.py lines 57–65):
draw a five-digit id, return it unless it collides, give up after
the attempt counter passes 100000 and return the timestamp fallback.  The
loop body runs at most 100001 times before the fallback fires, so a fuel of
`100001 - attempts` makes the recursion total without changing behaviour
(the fuel-exhausted case is unreachable and also returns the fallback). -/
def genLoop (rand : Nat → Nat) (ts : Nat) (userIds : List String) :
    Nat → Nat → String
  | _, 0 => fallbackId ts
  | attempts, fuel + 1 =>
    let uid := pad5 (rand attempts % 100000)
    if userIds.contains uid then
      if attempts + 1 > 100000 then fallbackId ts
      else genLoop rand ts userIds (attempts + 1) fuel
    else uid

/-- `generate_user_id` (helpers.py lines 51–65): collision-checked against
the existing user ids, timestamp fallback when retries are exhausted. -/
def generate_user_id (rand : Nat → Nat) (ts : Nat) (userIds : List String) : String :=
  genLoop rand ts userIds 0 100001

/-- Result of the external biometric capture collaborator
(`facial.capture_and_save_face_samples` + `train_lbph_recognizer`): it
either completes or fails (camera error / abort), in which case the
exception propagates out of `register_user` before `save_users` runs. -/
inductive CaptureResult where
  | ok
  | failed
deriving DecidableEq

/-- Durable storage touched by registration: the persisted `users.json`
and the per-user biometric folders `data/biometric/<uid>/faces` that
`create_user_folder` (helpers.py lines 68–73) creates. -/
structure SysState where
  usersFile : Registry
  folders : List String
deriving DecidableEq

/-- Outcome of `register_user`: `duplicate` is the `return None` on a
case-insensitive email match, `captureError` a failure escaping from the
biometric capture step, `ok uid` the normal return. -/
inductive RegOutcome where
  | duplicate
  | captureError
  | ok (uid : String)
deriving DecidableEq

/-- `self.users[user_id] = record`: replace an existing key, else append. -/
def upsertUser (users : Registry) (uid : String) (urec : UserRec) : Registry :=
  if users.any (fun e => e.1 == uid) then
    users.map (fun e => if e.1 == uid then (uid, urec) else e)
  else users ++ [(uid, urec)]

/-- `AuthSystem.register_user` (app.py lines 27–64).  Steps in source
order: case-insensitive duplicate-email scan over the registry
(`return None`), `generate_user_id`, `create_user_folder` (a durable
mutation), password hashing, building the record, the biometric branch
(face capture may fail, the fingerprint branch records the artifact path),
then `save_users`.  The persisted registry is only written in the final
step, so a capture failure leaves the new folder but no persisted record. -/
def register_user (h : String → String) (rand : Nat → Nat) (ts : Nat)
    (capture : String → CaptureResult) (st : SysState)
    (nm dob gender email password biometric_type : String) :
    SysState × RegOutcome :=
  if st.usersFile.any (fun e => lowerStr (pyStrip e.2.email) == lowerStr (pyStrip email)) then
    (st, .duplicate)
  else
    let uid := generate_user_id rand ts (st.usersFile.map (fun e => e.1))
    let st1 : SysState := { st with folders := st.folders ++ [uid] }
    let urec : UserRec :=
      ⟨pyStrip nm, pyStrip dob, gender, pyStrip email, h password, biometric_type, none⟩
    if biometric_type == "face" then
      match capture uid with
      | .failed => (st1, .captureError)
      | .ok => ({ st1 with usersFile := upsertUser st1.usersFile uid urec }, .ok uid)
    else if biometric_type == "fingerprint" then
      let fpPath := "data/biometric/" ++ uid ++ "/fingerprint.png"
      ({ st1 with usersFile :=
          upsertUser st1.usersFile uid { urec with fingerprint_path := some fpPath } }, .ok uid)
    else
      ({ st1 with usersFile := upsertUser st1.usersFile uid urec }, .ok uid)

/-- The registry scan of `login_password` (app.py lines 80–81): first user
whose id or stored email equals the stripped identifier. -/
def findAccount (users : Registry) (ident : String) : Option (String × UserRec) :=
  users.find? (fun e => ident == e.1 || ident == e.2.email)

/-- `AuthSystem.login_password` (app.py lines 69–87): strip the identifier,
check the fixed admin pair first, else find the first id-or-email match and
compare the stored digest with the digest of the submitted password; the
loop returns `False` immediately on a digest mismatch.  `some sid` models
`True` with `active_session = sid`, `none` models `False`. -/
def login_password (h : String → String) (users : Registry)
    (username_or_email password : String) : Option String :=
  let ident := pyStrip username_or_email
  if is_admin ident password then some "Admin"
  else
    let hashed := h password
    match findAccount users ident with
    | some e => if e.2.password == hashed then some e.1 else none
    | none => none

/-! ## Global hash-chained ledger (`src/blockchain/logger.py`)

`data/ledger.json` is a JSON array of blocks; the file-level
read-modify-write of `log_event` becomes list append.  The block's
`metadata` dict is string-valued in every repository call site
(`{"file": ...}`, `{"out": ...}`, `{}`), so it is a `List (String ×
String)`; `_calculate_hash` serializes with `sort_keys=True`. -/

structure LedgerBlock where
  timestamp : Nat
  user_id : String
  action : String
  metadata : List (String × String)
  prev_hash : String
  hash : String
deriving DecidableEq

/-- Insertion step of sorting the dict's pairs by key. -/
def insertByKey (kv : String × String) : List (String × String) → List (String × String)
  | [] => [kv]
  | x :: xs => if kv.1 ≤ x.1 then kv :: x :: xs else x :: insertByKey kv xs

/-- The dict's pairs in ascending key order (the order `sort_keys=True`
serializes them in). -/
def sortByKey (l : List (String × String)) : List (String × String) :=
  l.foldr insertByKey []

/-- `json.dumps` of a string-valued dict under `sort_keys=True`: keys in
sorted order, `", "`/`": "` separators. -/
def metaDumpsSorted (md : List (String × String)) : String :=
  "\x7b" ++ ", ".intercalate
    ((sortByKey md).map (fun kv => jsonQuote kv.1 ++ ": " ++ jsonQuote kv.2)) ++ "\x7d"

/-- `json.dumps(block, sort_keys=True)` for the block as it stands when
`_calculate_hash` runs (logger.py lines 103–111): the `hash` key is not yet
present, and the remaining keys sort as
`action < metadata < prev_hash < timestamp < user_id`. -/
def blockCanon (ts : Nat) (uid action : String) (md : List (String × String))
    (prev : String) : String :=
  "\x7b" ++ jsonQuote "action" ++ ": " ++ jsonQuote action ++ ", "
    ++ jsonQuote "metadata" ++ ": " ++ metaDumpsSorted md ++ ", "
    ++ jsonQuote "prev_hash" ++ ": " ++ jsonQuote prev ++ ", "
    ++ jsonQuote "timestamp" ++ ": " ++ toString ts ++ ", "
    ++ jsonQuote "user_id" ++ ": " ++ jsonQuote uid ++ "\x7d"

/-- `BlockchainLogger._calculate_hash` (logger.py lines 52–54):
`sha256(json.dumps(block, sort_keys=True))`, with the digest as the
parameter `h`. -/
def calculate_hash (h : String → String) (ts : Nat) (uid action : String)
    (md : List (String × String)) (prev : String) : String :=
  h (blockCanon ts uid action md prev)

/-- `BlockchainLogger._get_last_hash` (logger.py lines 44–50):
`ledger[-1]["hash"]`, or the `"GENESIS"` sentinel on an empty chain. -/
def get_last_hash (ledger : List LedgerBlock) : String :=
  match ledger.getLast? with
  | some b => b.hash
  | none => "GENESIS"

/-- `BlockchainLogger.log_event` (logger.py lines 99–119): build the block
with `prev_hash = _get_last_hash()`, add its hash, append. -/
def log_event (h : String → String) (ledger : List LedgerBlock) (ts : Nat)
    (uid action : String) (md : List (String × String)) : List LedgerBlock :=
  let prev := get_last_hash ledger
  ledger ++ [⟨ts, uid, action, md, prev, calculate_hash h ts uid action md prev⟩]

/-- `BlockchainLogger.get_user_logs` (logger.py lines 125–128). -/
def get_user_logs (ledger : List LedgerBlock) (uid : String) : List LedgerBlock :=
  ledger.filter (fun b => b.user_id == uid)

/-- One `log_event` request (timestamp from the clock plus the caller's
arguments). -/
structure LogReq where
  ts : Nat
  uid : String
  action : String
  md : List (String × String)

/-- A sequence of `log_event` calls against a fresh (empty) ledger. -/
def buildLedger (h : String → String) (reqs : List LogReq) : List LedgerBlock :=
  reqs.foldl (fun led r => log_event h led r.ts r.uid r.action r.md) []

/-- Modelled from the spec: `verify_chain` is named in spec §4.1 as a
property the design must support, but no such method exists under `src/`;
following the spec's words it recomputes every entry's expected hash from
the entry's own fields (via the source's `_calculate_hash` serialization)
and checks `prev_hash` linkage starting from the genesis sentinel,
returning false on the first mismatch. -/
def verifyFrom (h : String → String) (expected : String) : List LedgerBlock → Bool
  | [] => true
  | b :: rest =>
    b.prev_hash == expected
      && b.hash == calculate_hash h b.timestamp b.user_id b.action b.metadata b.prev_hash
      && verifyFrom h b.hash rest

/-- Modelled from the spec: the chain-level entry point of `verify_chain`,
starting the linkage check at the `"GENESIS"` sentinel of
`_get_last_hash`. -/
def verify_chain (h : String → String) (ledger : List LedgerBlock) : Bool :=
  verifyFrom h "GENESIS" ledger

/-- After-the-fact corruption of entry `i`'s metadata, leaving every other
field and every other entry untouched. -/
def tamperMeta (ledger : List LedgerBlock) (i : Nat) (md' : List (String × String)) :
    List LedgerBlock :=
  match ledger.get? i with
  | some b => ledger.set i { b with metadata := md' }
  | none => ledger

/-! ## Per-user hash chain (`save_blockchain_for_user`, helpers.py 213–242)

One JSON file per user; the first entry's `previous_hash` is `null`
(Python `None`), and `current_hash` is
`sha256(str(action) + json.dumps(metadata) + (prev_hash or ""))`. -/

structure UserChainBlock where
  timestamp : String
  user_id : String
  event : Option String
  action : Option String
  metadata : List (String × String)
  previous_hash : Option String
  current_hash : String
deriving DecidableEq

/-- Python `str` applied to `event.get("action")`: `str(None) = "None"`. -/
def pyStrOpt : Option String → String
  | none => "None"
  | some s => s

/-- `json.dumps(metadata)` for the string-valued metadata dict, insertion
order (no `sort_keys` here). -/
def metaDumps (md : List (String × String)) : String :=
  "\x7b" ++ ", ".intercalate
    (md.map (fun kv => jsonQuote kv.1 ++ ": " ++ jsonQuote kv.2)) ++ "\x7d"

/-- The `current_hash` expression of `save_blockchain_for_user`
(helpers.py line 237): a function of the entry's `action`, `metadata`
and `previous_hash` fields only. -/
def userChainHash (h : String → String) (action : Option String)
    (md : List (String × String)) (prev : Option String) : String :=
  h (pyStrOpt action ++ metaDumps md ++ prev.getD "")

/-- The `event` argument dict of `save_blockchain_for_user`:
`event.get("event")`, `event.get("action")` (either may be absent) and
`event.get("metadata", {})` (absence collapses to the empty dict). -/
structure UserEvent where
  event : Option String
  action : Option String
  metadata : List (String × String)

/-- `save_blockchain_for_user` (helpers.py lines 213–242) for one user's
chain file: `prev_hash = chain[-1].get("current_hash")` or `None` on an
empty chain, build the record, append, rewrite the file. -/
def save_blockchain_for_user (h : String → String) (ts uid : String)
    (ev : UserEvent) (chain : List UserChainBlock) : List UserChainBlock :=
  let prev : Option String := (chain.getLast?).map (fun b => b.current_hash)
  chain ++ [⟨ts, uid, ev.event, ev.action, ev.metadata, prev,
    userChainHash h ev.action ev.metadata prev⟩]

/-- One per-user chain append request (timestamp plus event dict). -/
structure UserChainReq where
  ts : String
  ev : UserEvent

/-- A sequence of `save_blockchain_for_user` calls for user `uid` against a
fresh (empty) chain file. -/
def buildUserChain (h : String → String) (uid : String) (reqs : List UserChainReq) :
    List UserChainBlock :=
  reqs.foldl (fun ch r => save_blockchain_for_user h r.ts uid r.ev ch) []

/-! ## Well-formedness of the global chain and its consequences -/

/-- The chain invariant, relative to the hash `expected` that the next
entry must link to: each entry links to its predecessor and stores the
hash `_calculate_hash` computes from its own non-hash fields. -/
def WFFrom (h : String → String) : String → List LedgerBlock → Prop
  | _, [] => True
  | e, b :: rest =>
    b.prev_hash = e ∧
    b.hash = calculate_hash h b.timestamp b.user_id b.action b.metadata b.prev_hash ∧
    WFFrom h b.hash rest

/-- Hash of the last entry, or `e` when the list is empty. -/
def lastHashD (e : String) (L : List LedgerBlock) : String :=
  match L.getLast? with
  | some b => b.hash
  | none => e

theorem lastHashD_concat (e : String) (L : List LedgerBlock) (b : LedgerBlock) :
    lastHashD e (L ++ [b]) = b.hash := by
  simp [lastHashD]

theorem lastHashD_cons (e : String) (x : LedgerBlock) (xs : List LedgerBlock) :
    lastHashD e (x :: xs) = lastHashD x.hash xs := by
  cases xs with
  | nil => rfl
  | cons y ys =>
    have hne : (y :: ys).getLast? = some ((y :: ys).getLast (by simp)) :=
      List.getLast?_eq_getLast _ (by simp)
    simp [lastHashD, List.getLast?_cons_cons, hne]

theorem get_last_hash_eq_lastHashD (L : List LedgerBlock) :
    get_last_hash L = lastHashD "GENESIS" L := rfl

theorem wfFrom_concat {h : String → String} {e : String} {L : List LedgerBlock}
    {b : LedgerBlock} (hwf : WFFrom h e L) (hprev : b.prev_hash = lastHashD e L)
    (hhash : b.hash = calculate_hash h b.timestamp b.user_id b.action b.metadata b.prev_hash) :
    WFFrom h e (L ++ [b]) := by
  induction L generalizing e with
  | nil =>
    exact ⟨hprev, hhash, trivial⟩
  | cons x xs ih =>
    obtain ⟨h1, h2, h3⟩ := hwf
    rw [lastHashD_cons] at hprev
    exact ⟨h1, h2, ih h3 hprev⟩

theorem wfFrom_log_event {h : String → String} {L : List LedgerBlock}
    (hwf : WFFrom h "GENESIS" L) (ts : Nat) (uid action : String)
    (md : List (String × String)) :
    WFFrom h "GENESIS" (log_event h L ts uid action md) := by
  exact wfFrom_concat hwf (get_last_hash_eq_lastHashD L) rfl

theorem wfFrom_buildLedger_from (h : String → String) (reqs : List LogReq) :
    ∀ L : List LedgerBlock, WFFrom h "GENESIS" L →
      WFFrom h "GENESIS" (reqs.foldl (fun led r => log_event h led r.ts r.uid r.action r.md) L) := by
  induction reqs with
  | nil => intro L hwf; exact hwf
  | cons r rs ih =>
    intro L hwf
    exact ih _ (wfFrom_log_event hwf r.ts r.uid r.action r.md)

theorem wfFrom_buildLedger (h : String → String) (reqs : List LogReq) :
    WFFrom h "GENESIS" (buildLedger h reqs) :=
  wfFrom_buildLedger_from h reqs [] trivial

theorem wfFrom_head_prev {h : String → String} {e : String} {L : List LedgerBlock}
    (hwf : WFFrom h e L) (h0 : 0 < L.length) :
    (L.get ⟨0, h0⟩).prev_hash = e := by
  cases L with
  | nil => exact absurd h0 (by simp)
  | cons b rest => exact hwf.1

theorem wfFrom_linked {h : String → String} {e : String} {L : List LedgerBlock}
    (hwf : WFFrom h e L) :
    ∀ (i : Nat) (hi : i + 1 < L.length),
      (L.get ⟨i + 1, hi⟩).prev_hash = (L.get ⟨i, Nat.lt_of_succ_lt hi⟩).hash := by
  induction L generalizing e with
  | nil => intro i hi; exact absurd hi (by simp)
  | cons b rest ih =>
    obtain ⟨h1, h2, h3⟩ := hwf
    intro i hi
    cases i with
    | zero =>
      have hr : 0 < rest.length := by simpa using hi
      simpa using wfFrom_head_prev h3 hr
    | succ j =>
      have hj : j + 1 < rest.length := by simpa using hi
      simpa using ih h3 j hj

theorem wfFrom_hash_pure {h : String → String} {e : String} {L : List LedgerBlock}
    (hwf : WFFrom h e L) :
    ∀ (i : Nat) (hi : i < L.length),
      (L.get ⟨i, hi⟩).hash =
        calculate_hash h (L.get ⟨i, hi⟩).timestamp (L.get ⟨i, hi⟩).user_id
          (L.get ⟨i, hi⟩).action (L.get ⟨i, hi⟩).metadata (L.get ⟨i, hi⟩).prev_hash := by
  induction L generalizing e with
  | nil => intro i hi; exact absurd hi (by simp)
  | cons b rest ih =>
    obtain ⟨h1, h2, h3⟩ := hwf
    intro i hi
    cases i with
    | zero => simpa using h2
    | succ j =>
      have hj : j < rest.length := by simpa using hi
      simpa using ih h3 j hj

theorem wfFrom_verify {h : String → String} {e : String} {L : List LedgerBlock}
    (hwf : WFFrom h e L) : verifyFrom h e L = true := by
  induction L generalizing e with
  | nil => rfl
  | cons b rest ih =>
    obtain ⟨h1, h2, h3⟩ := hwf
    have hprev : (b.prev_hash == e) = true := by simp [h1]
    have hh : (b.hash ==
        calculate_hash h b.timestamp b.user_id b.action b.metadata b.prev_hash) = true := by
      simp [h2]
    simp [verifyFrom, hprev, hh, ih h3]

theorem tamperMeta_cons_succ (b : LedgerBlock) (rest : List LedgerBlock) (i : Nat)
    (md' : List (String × String)) (hi : i < rest.length) :
    tamperMeta (b :: rest) (i + 1) md' = b :: tamperMeta rest i md' := by
  have hsome : rest[i]? = some rest[i] := List.getElem?_eq_getElem hi
  simp [tamperMeta, hsome]

theorem verify_tamper_false {h : String → String} {md' : List (String × String)} :
    ∀ (L : List LedgerBlock) (e : String) (i : Nat) (hi : i < L.length),
      WFFrom h e L →
      calculate_hash h (L.get ⟨i, hi⟩).timestamp (L.get ⟨i, hi⟩).user_id
          (L.get ⟨i, hi⟩).action md' (L.get ⟨i, hi⟩).prev_hash ≠ (L.get ⟨i, hi⟩).hash →
      verifyFrom h e (tamperMeta L i md') = false := by
  intro L
  induction L with
  | nil => intro e i hi; exact absurd hi (by simp)
  | cons b rest ih =>
    intro e i hi hwf hne
    obtain ⟨h1, h2, h3⟩ := hwf
    cases i with
    | zero =>
      have htm : tamperMeta (b :: rest) 0 md' = { b with metadata := md' } :: rest := by
        simp [tamperMeta]
      rw [htm]
      simp only [verifyFrom]
      have hprev : ({ b with metadata := md' } : LedgerBlock).prev_hash = e := h1
      have hhash :
          (({ b with metadata := md' } : LedgerBlock).hash ==
            calculate_hash h ({ b with metadata := md' } : LedgerBlock).timestamp
              ({ b with metadata := md' } : LedgerBlock).user_id
              ({ b with metadata := md' } : LedgerBlock).action
              ({ b with metadata := md' } : LedgerBlock).metadata
              ({ b with metadata := md' } : LedgerBlock).prev_hash) = false := by
        simp only [beq_eq_false_iff_ne, ne_eq]
        intro hcontra
        exact hne (by simpa using hcontra.symm)
      simp [hprev, hhash]
    | succ j =>
      have hj : j < rest.length := by simpa using hi
      rw [tamperMeta_cons_succ b rest j md' hj]
      simp only [verifyFrom]
      have hrec : verifyFrom h b.hash (tamperMeta rest j md') = false := by
        apply ih b.hash j hj h3
        simpa using hne
      simp [h1, ← h2, hrec]

/-! ## Well-formedness of the per-user chain -/

/-- Chain invariant for a per-user chain file, relative to the
`previous_hash` value the next entry must carry (`none` = the genesis
sentinel `null` of a fresh file). -/
def UserWFFrom (h : String → String) : Option String → List UserChainBlock → Prop
  | _, [] => True
  | e, b :: rest =>
    b.previous_hash = e ∧
    b.current_hash = userChainHash h b.action b.metadata b.previous_hash ∧
    UserWFFrom h (some b.current_hash) rest

/-- `current_hash` of the last entry, or `e` when the list is empty. -/
def lastUserHashD (e : Option String) (L : List UserChainBlock) : Option String :=
  match L.getLast? with
  | some b => some b.current_hash
  | none => e

theorem lastUserHashD_cons (e : Option String) (x : UserChainBlock)
    (xs : List UserChainBlock) :
    lastUserHashD e (x :: xs) = lastUserHashD (some x.current_hash) xs := by
  cases xs with
  | nil => rfl
  | cons y ys =>
    have hne : (y :: ys).getLast? = some ((y :: ys).getLast (by simp)) :=
      List.getLast?_eq_getLast _ (by simp)
    simp [lastUserHashD, List.getLast?_cons_cons, hne]

theorem userWfFrom_concat {h : String → String} {e : Option String}
    {L : List UserChainBlock} {b : UserChainBlock} (hwf : UserWFFrom h e L)
    (hprev : b.previous_hash = lastUserHashD e L)
    (hhash : b.current_hash = userChainHash h b.action b.metadata b.previous_hash) :
    UserWFFrom h e (L ++ [b]) := by
  induction L generalizing e with
  | nil => exact ⟨hprev, hhash, trivial⟩
  | cons x xs ih =>
    obtain ⟨h1, h2, h3⟩ := hwf
    rw [lastUserHashD_cons] at hprev
    exact ⟨h1, h2, ih h3 hprev⟩

theorem userWfFrom_save {h : String → String} {L : List UserChainBlock}
    (hwf : UserWFFrom h none L) (ts uid : String) (ev : UserEvent) :
    UserWFFrom h none (save_blockchain_for_user h ts uid ev L) := by
  refine userWfFrom_concat hwf ?_ rfl
  cases hL : L.getLast? <;> simp [lastUserHashD, hL]

theorem userWfFrom_buildUserChain_from (h : String → String) (uid : String)
    (reqs : List UserChainReq) :
    ∀ L : List UserChainBlock, UserWFFrom h none L →
      UserWFFrom h none
        (reqs.foldl (fun ch r => save_blockchain_for_user h r.ts uid r.ev ch) L) := by
  induction reqs with
  | nil => intro L hwf; exact hwf
  | cons r rs ih =>
    intro L hwf
    exact ih _ (userWfFrom_save hwf r.ts uid r.ev)

theorem userWfFrom_buildUserChain (h : String → String) (uid : String)
    (reqs : List UserChainReq) :
    UserWFFrom h none (buildUserChain h uid reqs) :=
  userWfFrom_buildUserChain_from h uid reqs [] trivial

theorem userWfFrom_head_prev {h : String → String} {e : Option String}
    {L : List UserChainBlock} (hwf : UserWFFrom h e L) (h0 : 0 < L.length) :
    (L.get ⟨0, h0⟩).previous_hash = e := by
  cases L with
  | nil => exact absurd h0 (by simp)
  | cons b rest => exact hwf.1

theorem userWfFrom_linked {h : String → String} {e : Option String}
    {L : List UserChainBlock} (hwf : UserWFFrom h e L) :
    ∀ (i : Nat) (hi : i + 1 < L.length),
      (L.get ⟨i + 1, hi⟩).previous_hash =
        some (L.get ⟨i, Nat.lt_of_succ_lt hi⟩).current_hash := by
  induction L generalizing e with
  | nil => intro i hi; exact absurd hi (by simp)
  | cons b rest ih =>
    obtain ⟨h1, h2, h3⟩ := hwf
    intro i hi
    cases i with
    | zero =>
      have hr : 0 < rest.length := by simpa using hi
      simpa using userWfFrom_head_prev h3 hr
    | succ j =>
      have hj : j + 1 < rest.length := by simpa using hi
      simpa using ih h3 j hj

theorem userWfFrom_hash_pure {h : String → String} {e : Option String}
    {L : List UserChainBlock} (hwf : UserWFFrom h e L) :
    ∀ (i : Nat) (hi : i < L.length),
      (L.get ⟨i, hi⟩).current_hash =
        userChainHash h (L.get ⟨i, hi⟩).action (L.get ⟨i, hi⟩).metadata
          (L.get ⟨i, hi⟩).previous_hash := by
  induction L generalizing e with
  | nil => intro i hi; exact absurd hi (by simp)
  | cons b rest ih =>
    obtain ⟨h1, h2, h3⟩ := hwf
    intro i hi
    cases i with
    | zero => simpa using h2
    | succ j =>
      have hj : j < rest.length := by simpa using hi
      simpa using ih h3 j hj

/-! ## Concrete example data used by the witnesses -/

/-- A concrete stand-in for the SHA-256 hex digest in witness
instantiations (any `String → String` satisfies the claim theorems). -/
def exHash : String → String := fun s => "sha256:" ++ s

/-- Two concrete `log_event` requests. -/
def exReqs : List LogReq :=
  [⟨1700000000, "00042", "EHR_FILE_UPLOADED", [("file", "data/ehr_files/00042/a.json")]⟩,
   ⟨1700000001, "00042", "ADMIN_DOWNLOADED_EHR", [("file", "data/ehr_files/00042/a.json")]⟩]

/-- The ledger the two example requests build. -/
def exLedger : List LedgerBlock := buildLedger exHash exReqs

/-- Two concrete per-user chain append requests. -/
def exUReqs : List UserChainReq :=
  [⟨"2026-10-12T00:00:00Z", ⟨some "upload", some "EHR_FILE_UPLOADED", [("file", "a.json")]⟩⟩,
   ⟨"2026-10-12T00:00:01Z", ⟨some "download", some "EHR_VIEW_DOWNLOAD", []⟩⟩]

/-- The per-user chain the two example requests build. -/
def exUserChain : List UserChainBlock := buildUserChain exHash "00042" exUReqs

/-! ## Claim theorems -/

/-- C1: for the global ledger and for each per-user chain, over any
sequence of append operations on an initially empty chain, the first
entry's previous-hash field is the genesis sentinel (`"GENESIS"` for the
ledger, `null` for a per-user file), every later entry's previous-hash
field equals the preceding entry's hash field, and every entry's hash
field is the value of a fixed pure function (`_calculate_hash` resp. the
`current_hash` expression) of that entry's own fields excluding the hash
field itself. -/
theorem claim_C1 (h : String → String) (reqs : List LogReq) (uid : String)
    (ureqs : List UserChainReq) :
    ((∀ (h0 : 0 < (buildLedger h reqs).length),
        ((buildLedger h reqs).get ⟨0, h0⟩).prev_hash = "GENESIS") ∧
      (∀ (i : Nat) (hi : i + 1 < (buildLedger h reqs).length),
        ((buildLedger h reqs).get ⟨i + 1, hi⟩).prev_hash =
          ((buildLedger h reqs).get ⟨i, Nat.lt_of_succ_lt hi⟩).hash) ∧
      (∀ (i : Nat) (hi : i < (buildLedger h reqs).length),
        ((buildLedger h reqs).get ⟨i, hi⟩).hash =
          calculate_hash h ((buildLedger h reqs).get ⟨i, hi⟩).timestamp
            ((buildLedger h reqs).get ⟨i, hi⟩).user_id
            ((buildLedger h reqs).get ⟨i, hi⟩).action
            ((buildLedger h reqs).get ⟨i, hi⟩).metadata
            ((buildLedger h reqs).get ⟨i, hi⟩).prev_hash)) ∧
    ((∀ (h0 : 0 < (buildUserChain h uid ureqs).length),
        ((buildUserChain h uid ureqs).get ⟨0, h0⟩).previous_hash = none) ∧
      (∀ (i : Nat) (hi : i + 1 < (buildUserChain h uid ureqs).length),
        ((buildUserChain h uid ureqs).get ⟨i + 1, hi⟩).previous_hash =
          some ((buildUserChain h uid ureqs).get ⟨i, Nat.lt_of_succ_lt hi⟩).current_hash) ∧
      (∀ (i : Nat) (hi : i < (buildUserChain h uid ureqs).length),
        ((buildUserChain h uid ureqs).get ⟨i, hi⟩).current_hash =
          userChainHash h ((buildUserChain h uid ureqs).get ⟨i, hi⟩).action
            ((buildUserChain h uid ureqs).get ⟨i, hi⟩).metadata
            ((buildUserChain h uid ureqs).get ⟨i, hi⟩).previous_hash)) := by
  have hwf := wfFrom_buildLedger h reqs
  have huwf := userWfFrom_buildUserChain h uid ureqs
  exact ⟨⟨fun h0 => wfFrom_head_prev hwf h0, wfFrom_linked hwf, wfFrom_hash_pure hwf⟩,
    ⟨fun h0 => userWfFrom_head_prev huwf h0, userWfFrom_linked huwf,
      userWfFrom_hash_pure huwf⟩⟩

/-- Witness for C1: the invariants instantiated on the concrete two-entry
ledger and two-entry per-user chain, with every index bound discharged by
evaluation. -/
theorem claim_C1_witness :
    (0 < exLedger.length ∧ (exLedger.get ⟨0, by decide⟩).prev_hash = "GENESIS") ∧
    (0 + 1 < exLedger.length ∧
      (exLedger.get ⟨1, by decide⟩).prev_hash = (exLedger.get ⟨0, by decide⟩).hash) ∧
    (1 < exLedger.length ∧
      (exLedger.get ⟨1, by decide⟩).hash =
        calculate_hash exHash (exLedger.get ⟨1, by decide⟩).timestamp
          (exLedger.get ⟨1, by decide⟩).user_id (exLedger.get ⟨1, by decide⟩).action
          (exLedger.get ⟨1, by decide⟩).metadata (exLedger.get ⟨1, by decide⟩).prev_hash) ∧
    (0 < exUserChain.length ∧ (exUserChain.get ⟨0, by decide⟩).previous_hash = none) ∧
    (0 + 1 < exUserChain.length ∧
      (exUserChain.get ⟨1, by decide⟩).previous_hash =
        some (exUserChain.get ⟨0, by decide⟩).current_hash) ∧
    (1 < exUserChain.length ∧
      (exUserChain.get ⟨1, by decide⟩).current_hash =
        userChainHash exHash (exUserChain.get ⟨1, by decide⟩).action
          (exUserChain.get ⟨1, by decide⟩).metadata
          (exUserChain.get ⟨1, by decide⟩).previous_hash) := by
  have hc := claim_C1 exHash exReqs "00042" exUReqs
  exact ⟨⟨by decide, hc.1.1 (by decide)⟩, ⟨by decide, hc.1.2.1 0 (by decide)⟩,
    ⟨by decide, hc.1.2.2 1 (by decide)⟩, ⟨by decide, hc.2.1 (by decide)⟩,
    ⟨by decide, hc.2.2.1 0 (by decide)⟩, ⟨by decide, hc.2.2.2 1 (by decide)⟩⟩

/-- C3: `verify_chain` (modelled from the spec, over the source's
`_calculate_hash` and `log_event`) returns true on every chain built by
appends from an empty ledger; and corrupting any single entry's metadata
afterwards makes it return false, provided the hash recomputed for the
corrupted entry differs from the stored one (the no-collision property
SHA-256 supplies in the source). -/
theorem claim_C3 (h : String → String) (reqs : List LogReq) :
    verify_chain h (buildLedger h reqs) = true ∧
    ∀ (i : Nat) (md' : List (String × String)) (hi : i < (buildLedger h reqs).length),
      calculate_hash h ((buildLedger h reqs).get ⟨i, hi⟩).timestamp
          ((buildLedger h reqs).get ⟨i, hi⟩).user_id
          ((buildLedger h reqs).get ⟨i, hi⟩).action md'
          ((buildLedger h reqs).get ⟨i, hi⟩).prev_hash
        ≠ ((buildLedger h reqs).get ⟨i, hi⟩).hash →
      verify_chain h (tamperMeta (buildLedger h reqs) i md') = false := by
  have hwf := wfFrom_buildLedger h reqs
  refine ⟨wfFrom_verify hwf, ?_⟩
  intro i md' hi hne
  exact verify_tamper_false (buildLedger h reqs) "GENESIS" i hi hwf hne

/-- Witness for C3: the concrete two-entry ledger verifies, and replacing
entry 0's metadata with a different dict (whose recomputed hash evaluates
to a different string) makes verification fail. -/
theorem claim_C3_witness :
    verify_chain exHash exLedger = true ∧
    0 < exLedger.length ∧
    calculate_hash exHash (exLedger.get ⟨0, by decide⟩).timestamp
        (exLedger.get ⟨0, by decide⟩).user_id (exLedger.get ⟨0, by decide⟩).action
        [("file", "evil.json")] (exLedger.get ⟨0, by decide⟩).prev_hash
      ≠ (exLedger.get ⟨0, by decide⟩).hash ∧
    verify_chain exHash (tamperMeta exLedger 0 [("file", "evil.json")]) = false := by
  refine ⟨(claim_C3 exHash exReqs).1, by decide, by decide, ?_⟩
  exact (claim_C3 exHash exReqs).2 0 [("file", "evil.json")] (by decide) (by decide)

/-- C5: `log_event` grows the ledger by exactly one entry, leaves every
existing entry unchanged, and a subsequent `get_user_logs(subject_id)`
returns exactly the old filtered history with the newly appended entry as
its last element. -/
theorem claim_C5 (h : String → String) (led : List LedgerBlock) (ts : Nat)
    (uid action : String) (md : List (String × String)) :
    (log_event h led ts uid action md).length = led.length + 1 ∧
    (∀ i : Nat, i < led.length → (log_event h led ts uid action md)[i]? = led[i]?) ∧
    get_user_logs (log_event h led ts uid action md) uid =
      get_user_logs led uid ++ [⟨ts, uid, action, md, get_last_hash led,
        calculate_hash h ts uid action md (get_last_hash led)⟩] ∧
    (get_user_logs (log_event h led ts uid action md) uid).getLast? =
      some ⟨ts, uid, action, md, get_last_hash led,
        calculate_hash h ts uid action md (get_last_hash led)⟩ := by
  refine ⟨by simp [log_event], ?_, ?_, ?_⟩
  · intro i hi
    simp [log_event, List.getElem?_append_left hi]
  · simp [get_user_logs, log_event, List.filter_append]
  · simp [get_user_logs, log_event, List.filter_append, List.getLast?_concat]

/-- Witness for C5: the three consequences of one concrete append on the
one-entry ledger, with the index bound discharged by evaluation. -/
theorem claim_C5_witness :
    (log_event exHash (buildLedger exHash [⟨5, "u1", "LOGIN", []⟩]) 6 "u1" "UPLOAD"
        [("file", "f.json")]).length =
      (buildLedger exHash [⟨5, "u1", "LOGIN", []⟩]).length + 1 ∧
    0 < (buildLedger exHash [⟨5, "u1", "LOGIN", []⟩]).length ∧
    (log_event exHash (buildLedger exHash [⟨5, "u1", "LOGIN", []⟩]) 6 "u1" "UPLOAD"
        [("file", "f.json")])[0]? = (buildLedger exHash [⟨5, "u1", "LOGIN", []⟩])[0]? ∧
    (get_user_logs (log_event exHash (buildLedger exHash [⟨5, "u1", "LOGIN", []⟩]) 6 "u1"
        "UPLOAD" [("file", "f.json")]) "u1").getLast? =
      some ⟨6, "u1", "UPLOAD", [("file", "f.json")],
        get_last_hash (buildLedger exHash [⟨5, "u1", "LOGIN", []⟩]),
        calculate_hash exHash 6 "u1" "UPLOAD" [("file", "f.json")]
          (get_last_hash (buildLedger exHash [⟨5, "u1", "LOGIN", []⟩]))⟩ := by
  have hc := claim_C5 exHash (buildLedger exHash [⟨5, "u1", "LOGIN", []⟩]) 6 "u1" "UPLOAD"
    [("file", "f.json")]
  exact ⟨hc.1, by decide, hc.2.1 0 (by decide), hc.2.2.2⟩

/-! ## Claim C2: the JSON validation policy -/

/-- The six-field required set named by the claim and spec §4.2 ("name,
address, genotype, blood group, date of birth,
medical-history-or-equivalent"), spelled as in the spec's §8 scenario
(`blood_group`, `dob`, `medical_history`). -/
def specRequiredSix : List String :=
  ["name", "address", "genotype", "blood_group", "dob", "medical_history"]

/-- The claim's smaller canonical keyword set {name, address, genotype,
blood group}. -/
def specKeywordFour : List String := ["name", "address", "genotype", "blood_group"]

/-- The claim's validation predicate, stated from the spec's words for
comparison with the source's `validate_json_ehr`: succeed iff the required
six-field set is a subset of the top-level keys, OR at least two of the
canonical keywords occur case-insensitively in the flattened structure. -/
def specValidateJsonEhr (parsed : Option Json) : Bool :=
  match parsed with
  | some (Json.obj kvs) =>
    let keys := kvs.map (fun kv => lowerStr kv.1)
    specRequiredSix.all (fun k => keys.contains k)
      || 2 ≤ specKeywordFour.countP
          (fun kw => pyIn kw (lowerStr (Json.dumps (Json.obj kvs))))
  | _ => false

/-- The structured file of the C2 counterexample: top-level keys miss
every required field but `name`, and its flattened text contains exactly
one canonical keyword. -/
def exC2 : Json := Json.obj [("name", Json.str "A")]

/-- Counterexample to C2 as stated: the source accepts `{"name": "A"}`
(its key set meets `_EHR_REQUIRED_FIELDS`, an intersection test, not the
claim's subset-of-six test), while the claim's predicate rejects it —
its top-level keys miss two or more of the canonical set and its
flattened text contains fewer than two keywords. -/
theorem claim_C2_counterexample :
    validate_json_ehr (some exC2) = true ∧ specValidateJsonEhr (some exC2) = false := by
  constructor
  · decide
  · decide

/-- C2 (amended): validation of a parsed JSON candidate succeeds iff it is
a JSON object and either at least ONE of the four keywords {name, address,
genotype, bloodgroup} occurs (case-insensitively) among its top-level
keys, or at least two of them occur as case-insensitive substrings of the
flattened structure; so an object with none of the four among its keys and
fewer than two keyword occurrences in its flattened text is rejected, as
are non-objects and unparseable files. -/
theorem validate_json_ehr_obj (kvs : List (String × Json)) :
    validate_json_ehr (some (Json.obj kvs)) =
      (EHR_REQUIRED_FIELDS.any (fun k => (kvs.map (fun kv => lowerStr kv.1)).contains k)
        || text_contains_ehr_keywords (lowerStr (Json.dumps (Json.obj kvs)))) := by
  by_cases hany : EHR_REQUIRED_FIELDS.any
      (fun k => (kvs.map (fun kv => lowerStr kv.1)).contains k) = true
  · simp [validate_json_ehr, hany]
  · simp only [Bool.not_eq_true] at hany
    simp [validate_json_ehr, hany]

theorem claim_C2 (parsed : Option Json) :
    validate_json_ehr parsed = true ↔
      ∃ kvs : List (String × Json), parsed = some (Json.obj kvs) ∧
        ((∃ kv ∈ kvs, lowerStr kv.1 ∈ EHR_REQUIRED_FIELDS) ∨
          text_contains_ehr_keywords (lowerStr (Json.dumps (Json.obj kvs))) = true) := by
  cases parsed with
  | none => simp [validate_json_ehr]
  | some data =>
    cases data with
    | obj kvs =>
      rw [validate_json_ehr_obj, Bool.or_eq_true]
      constructor
      · rintro (hany | htxt)
        · refine ⟨kvs, rfl, Or.inl ?_⟩
          obtain ⟨k, hk, hcont⟩ := List.any_eq_true.mp hany
          have hmemk : k ∈ kvs.map (fun kv => lowerStr kv.1) := by simpa using hcont
          obtain ⟨kv, hkv, hkveq⟩ := List.mem_map.mp hmemk
          exact ⟨kv, hkv, by rw [hkveq]; exact hk⟩
        · exact ⟨kvs, rfl, Or.inr htxt⟩
      · rintro ⟨kvs', heq, hcase⟩
        have hkeq : kvs = kvs' := by
          injection heq with h1
          injection h1
        subst hkeq
        cases hcase with
        | inl hex =>
          obtain ⟨kv, hkv, hmem⟩ := hex
          refine Or.inl (List.any_eq_true.mpr ⟨lowerStr kv.1, hmem, ?_⟩)
          exact List.elem_eq_true_of_mem (List.mem_map.mpr ⟨kv, hkv, rfl⟩)
        | inr htxt => exact Or.inr htxt
    | null => simp [validate_json_ehr]
    | bool b => simp [validate_json_ehr]
    | num n => simp [validate_json_ehr]
    | str s => simp [validate_json_ehr]
    | arr xs => simp [validate_json_ehr]

/-! ## Claims C9 and C4: the format allow-list and the save gate -/

/-- C9: any candidate file whose (lowercased) extension is outside the
allow-listed set {.json, .txt, .md, .csv, .pdf} is rejected by
`validate_ehr_file` unconditionally, whatever its parse result, text or
extractable content. -/
theorem claim_C9 (f : PyFile)
    (hsfx : lowerStr (pySuffix f.path) ∉ [".json", ".txt", ".md", ".csv", ".pdf"]) :
    validate_ehr_file f = false := by
  simp only [List.mem_cons, List.mem_singleton, not_or] at hsfx
  obtain ⟨h1, h2, h3, h4, h5⟩ := hsfx
  cases hf : f.isFile with
  | false => simp [validate_ehr_file, hf]
  | true => simp [validate_ehr_file, hf, h1, h2, h3, h4, h5]

/-- An `.exe` file whose content would pass every content check: parseable
JSON full of required keys, keyword-rich text and extractable PDF text. -/
def exExeFile : PyFile :=
  ⟨"records/patient.exe", true,
    some (Json.obj [("name", Json.str "A"), ("address", Json.str "B"),
      ("genotype", Json.str "AA"), ("bloodgroup", Json.str "O+")]),
    "name address genotype bloodgroup", some "name address genotype bloodgroup"⟩

/-- Witness for C9: the `.exe` extension is outside the allow-list, and the
file is rejected despite its fully keyword-rich content. -/
theorem claim_C9_witness :
    lowerStr (pySuffix exExeFile.path) ∉ [".json", ".txt", ".md", ".csv", ".pdf"] ∧
    validate_ehr_file exExeFile = false := by
  refine ⟨by decide, ?_⟩
  exact claim_C9 exExeFile (by decide)

/-- The `ValueError` message of `save_ehr_for_user` (helpers.py line 168). -/
def saveRejectMsg : String :=
  "EHR validation failed. The uploaded file does not contain required EHR fields."

theorem storePut_mem {files : List (String × String × PyFile)} {uid fname : String}
    {f : PyFile} {e : String × String × PyFile} (he : e ∈ storePut files uid fname f) :
    e ∈ files ∨ e = (uid, fname, f) := by
  unfold storePut at he
  by_cases hc : files.any (fun e => e.1 == uid && e.2.1 == fname) = true
  · rw [if_pos hc] at he
    obtain ⟨x, hx, hxe⟩ := List.mem_map.mp he
    by_cases hxc : (x.1 == uid && x.2.1 == fname) = true
    · right; rw [← hxe]; simp [hxc]
    · left
      rw [← hxe]
      simp only [Bool.not_eq_true] at hxc
      simpa [hxc] using hx
  · rw [if_neg hc] at he
    rcases List.mem_append.mp he with hin | hnew
    · exact Or.inl hin
    · exact Or.inr (List.mem_singleton.mp hnew)

theorem runSaves_validated (ops : List (String × PyFile)) :
    ∀ st : EhrStore, (∀ e ∈ st.files, validate_ehr_file e.2.2 = true) →
      ∀ e ∈ (ops.foldl (fun st op => (save_ehr_for_user op.1 op.2 st).1) st).files,
        validate_ehr_file e.2.2 = true := by
  induction ops with
  | nil => intro st hst e he; exact hst e he
  | cons op rest ih =>
    intro st hst
    refine ih _ ?_
    intro e he
    by_cases hv : validate_ehr_file op.2 = true
    · simp only [save_ehr_for_user, hv, Bool.not_true, Bool.false_eq_true, if_false] at he
      rcases storePut_mem he with hin | hnew
      · exact hst e hin
      · rw [hnew]; exact hv
    · simp only [Bool.not_eq_true] at hv
      simpa [save_ehr_for_user, hv] using hst e (by simpa [save_ehr_for_user, hv] using he)

/-- C4: `save_ehr_for_user` consults the validator first; on a rejected
file it fails with the distinct content-rejected error (`ValueError`),
never the I/O error class, and mutates nothing; consequently every file in
any store reachable by save operations from an empty store passed
validation at the time it was saved. -/
theorem claim_C4 (uid : String) (f : PyFile) (st : EhrStore)
    (ops : List (String × PyFile)) :
    (validate_ehr_file f = false →
      save_ehr_for_user uid f st = (st, .error (.validationRejected saveRejectMsg))) ∧
    (∀ m : String, (save_ehr_for_user uid f st).2 ≠ .error (.ioError m)) ∧
    (∀ e ∈ (runSaves ops).files, validate_ehr_file e.2.2 = true) := by
  refine ⟨?_, ?_, ?_⟩
  · intro hv
    simp [save_ehr_for_user, hv, saveRejectMsg]
  · intro m
    by_cases hv : validate_ehr_file f = true
    · simp [save_ehr_for_user, hv]
    · simp only [Bool.not_eq_true] at hv
      simp [save_ehr_for_user, hv]
  · exact runSaves_validated ops ⟨[]⟩ (by intro e he; simp at he)

/-- A `.json` file that parses to a non-object, hence fails validation. -/
def exBadFile : PyFile := ⟨"note.json", true, some (Json.str "hello"), "hello", none⟩

/-- Witness for C4: saving the concrete invalid file into an empty store
fails with the content-rejected error and leaves the store unchanged, and
the two-operation save sequence (one invalid, one valid file) yields a
store whose every entry passed validation. -/
theorem claim_C4_witness :
    validate_ehr_file exBadFile = false ∧
    save_ehr_for_user "00042" exBadFile ⟨[]⟩ =
      (⟨[]⟩, .error (.validationRejected saveRejectMsg)) ∧
    (∀ m : String, (save_ehr_for_user "00042" exBadFile ⟨[]⟩).2 ≠ .error (.ioError m)) ∧
    (∀ e ∈ (runSaves [("00042", exBadFile), ("00042", exExeFile)]).files,
      validate_ehr_file e.2.2 = true) := by
  have hc := claim_C4 "00042" exBadFile (⟨[]⟩ : EhrStore)
    [("00042", exBadFile), ("00042", exExeFile)]
  exact ⟨by decide, hc.1 (by decide), hc.2.1, hc.2.2⟩

/-! ## Registration and id generation (claims C6, C7) -/

theorem genLoop_exhaust (rand : Nat → Nat) (ts : Nat) (userIds : List String)
    (hcol : ∀ a : Nat, userIds.contains (pad5 (rand a % 100000)) = true) :
    ∀ (fuel attempts : Nat), attempts + fuel = 100001 →
      genLoop rand ts userIds attempts fuel = fallbackId ts := by
  intro fuel
  induction fuel with
  | zero => intro a _; rfl
  | succ fu ih =>
    intro a ha
    by_cases hgt : a + 1 > 100000
    · simp only [genLoop, hcol a, if_true, hgt]
    · simp only [genLoop, hcol a, if_true, hgt, if_false]
      exact ih (a + 1) (by omega)

theorem generate_user_id_exhaust (rand : Nat → Nat) (ts : Nat) (userIds : List String)
    (hcol : ∀ a : Nat, userIds.contains (pad5 (rand a % 100000)) = true) :
    generate_user_id rand ts userIds = fallbackId ts :=
  genLoop_exhaust rand ts userIds hcol 100001 0 rfl

theorem genLoop_collide_fallback (rand : Nat → Nat) (ts : Nat) (userIds : List String) :
    ∀ (fuel attempts : Nat),
      userIds.contains (genLoop rand ts userIds attempts fuel) = true →
      genLoop rand ts userIds attempts fuel = fallbackId ts := by
  intro fuel
  induction fuel with
  | zero => intro a _; rfl
  | succ fu ih =>
    intro a hcon
    by_cases hc : userIds.contains (pad5 (rand a % 100000)) = true
    · by_cases hgt : a + 1 > 100000
      · simp only [genLoop, hc, if_true, hgt]
      · simp only [genLoop, hc, if_true, hgt, if_false]
        apply ih (a + 1)
        simpa only [genLoop, hc, if_true, hgt, if_false] using hcon
    · simp only [Bool.not_eq_true] at hc
      simp only [genLoop, hc, Bool.false_eq_true, if_false] at hcon

theorem digitChar_isDigit (m : Nat) (hm : m < 10) : (Nat.digitChar m).isDigit = true := by
  interval_cases m <;> decide

theorem pad5_five_digits (n : Nat) :
    (pad5 n).length = 5 ∧ ∀ c ∈ (pad5 n).toList, c.isDigit = true := by
  refine ⟨rfl, ?_⟩
  intro c hc
  have hc' : c ∈ [Nat.digitChar (n / 10000 % 10), Nat.digitChar (n / 1000 % 10),
      Nat.digitChar (n / 100 % 10), Nat.digitChar (n / 10 % 10), Nat.digitChar (n % 10)] := hc
  fin_cases hc' <;> exact digitChar_isDigit _ (Nat.mod_lt _ (by norm_num))

/-- The duplicate-email test of `register_user` as a single predicate. -/
def dupEmail (users : Registry) (email : String) : Bool :=
  users.any (fun e => lowerStr (pyStrip e.2.email) == lowerStr (pyStrip email))

theorem register_user_dup (h : String → String) (rand : Nat → Nat) (ts : Nat)
    (capture : String → CaptureResult) (st : SysState)
    (nm dob gender email password bt : String)
    (hdup : dupEmail st.usersFile email = true) :
    register_user h rand ts capture st nm dob gender email password bt = (st, .duplicate) := by
  simp only [register_user, dupEmail] at hdup ⊢
  rw [if_pos hdup]

theorem register_user_face_failed (h : String → String) (rand : Nat → Nat) (ts : Nat)
    (capture : String → CaptureResult) (st : SysState)
    (nm dob gender email password : String)
    (hdup : dupEmail st.usersFile email = false)
    (hcap : capture (generate_user_id rand ts (st.usersFile.map (fun e => e.1))) = .failed) :
    register_user h rand ts capture st nm dob gender email password "face" =
      ({ st with folders :=
          st.folders ++ [generate_user_id rand ts (st.usersFile.map (fun e => e.1))] },
        .captureError) := by
  simp only [dupEmail] at hdup
  simp only [register_user, hdup, Bool.false_eq_true, if_false, hcap]
  simp

theorem register_user_face_ok (h : String → String) (rand : Nat → Nat) (ts : Nat)
    (capture : String → CaptureResult) (st : SysState)
    (nm dob gender email password : String)
    (hdup : dupEmail st.usersFile email = false)
    (hcap : capture (generate_user_id rand ts (st.usersFile.map (fun e => e.1))) = .ok) :
    register_user h rand ts capture st nm dob gender email password "face" =
      ({ st with
          folders := st.folders ++ [generate_user_id rand ts (st.usersFile.map (fun e => e.1))],
          usersFile := upsertUser st.usersFile
            (generate_user_id rand ts (st.usersFile.map (fun e => e.1)))
            ⟨pyStrip nm, pyStrip dob, gender, pyStrip email, h password, "face", none⟩ },
        .ok (generate_user_id rand ts (st.usersFile.map (fun e => e.1)))) := by
  simp only [dupEmail] at hdup
  simp only [register_user, hdup, Bool.false_eq_true, if_false, hcap]
  simp

/-- Counterexample to C6 as stated: with an empty store, a fresh email and
a biometric capture that fails, `register_user` fails (the exception path)
yet has already created the user's biometric folder — a failed
registration that performed a storage mutation and left partial user state
behind, unlike the claim's "fails before performing any storage
mutation". -/
theorem claim_C6_counterexample :
    (register_user exHash (fun _ => 42) 1700000000 (fun _ => .failed) ⟨[], []⟩
        "N" "2000-01-01" "M" "n@x.com" "pw" "face").2 = .captureError ∧
    (register_user exHash (fun _ => 42) 1700000000 (fun _ => .failed) ⟨[], []⟩
        "N" "2000-01-01" "M" "n@x.com" "pw" "face").1.folders = ["00042"] ∧
    (register_user exHash (fun _ => 42) 1700000000 (fun _ => .failed) ⟨[], []⟩
        "N" "2000-01-01" "M" "n@x.com" "pw" "face").1.usersFile = [] := by
  refine ⟨?_, ?_, ?_⟩ <;> decide

/-- C6 (amended): a registration rejected for a duplicate email fails
before any storage mutation (the state is returned untouched); a
registration whose biometric capture succeeds persists the complete
record; but a registration whose capture fails has already created the
user's biometric folder — that folder is left behind while no registry
entry is persisted. -/
theorem claim_C6 (h : String → String) (rand : Nat → Nat) (ts : Nat)
    (capture : String → CaptureResult) (st : SysState)
    (nm dob gender email password bt : String) :
    (dupEmail st.usersFile email = true →
      register_user h rand ts capture st nm dob gender email password bt = (st, .duplicate)) ∧
    (dupEmail st.usersFile email = false →
      capture (generate_user_id rand ts (st.usersFile.map (fun e => e.1))) = .failed →
      register_user h rand ts capture st nm dob gender email password "face" =
        ({ st with folders :=
            st.folders ++ [generate_user_id rand ts (st.usersFile.map (fun e => e.1))] },
          .captureError)) ∧
    (dupEmail st.usersFile email = false →
      capture (generate_user_id rand ts (st.usersFile.map (fun e => e.1))) = .ok →
      register_user h rand ts capture st nm dob gender email password "face" =
        ({ st with
            folders := st.folders ++ [generate_user_id rand ts (st.usersFile.map (fun e => e.1))],
            usersFile := upsertUser st.usersFile
              (generate_user_id rand ts (st.usersFile.map (fun e => e.1)))
              ⟨pyStrip nm, pyStrip dob, gender, pyStrip email, h password, "face", none⟩ },
          .ok (generate_user_id rand ts (st.usersFile.map (fun e => e.1))))) := by
  exact ⟨register_user_dup h rand ts capture st nm dob gender email password bt,
    register_user_face_failed h rand ts capture st nm dob gender email password,
    register_user_face_ok h rand ts capture st nm dob gender email password⟩

/-- Witness for C6 (amended): the duplicate branch returns the state
untouched, and the capture-failure branch on an empty store returns the
state with exactly the new folder added and nothing persisted. -/
theorem claim_C6_witness :
    dupEmail [("00001", ⟨"A", "2000-01-01", "F", "a@x.com", exHash "pw", "face", none⟩)]
      "A@X.COM " = true ∧
    register_user exHash (fun _ => 42) 1700000000 (fun _ => .ok)
        ⟨[("00001", ⟨"A", "2000-01-01", "F", "a@x.com", exHash "pw", "face", none⟩)], ["00001"]⟩
        "B" "2001-01-01" "M" "A@X.COM " "pw2" "face" =
      (⟨[("00001", ⟨"A", "2000-01-01", "F", "a@x.com", exHash "pw", "face", none⟩)], ["00001"]⟩,
        .duplicate) ∧
    dupEmail [] "n@x.com" = false ∧
    (fun (_ : String) => CaptureResult.failed) (generate_user_id (fun _ => 42) 1700000000
      (([] : Registry).map (fun e => e.1))) = .failed ∧
    register_user exHash (fun _ => 42) 1700000000 (fun _ => .failed) ⟨[], []⟩
        "N" "2000-01-01" "M" "n@x.com" "pw" "face" =
      (⟨[], [generate_user_id (fun _ => 42) 1700000000 (([] : Registry).map (fun e => e.1))]⟩,
        .captureError) := by
  have hc1 := (claim_C6 exHash (fun _ => 42) 1700000000 (fun _ => .ok)
    ⟨[("00001", ⟨"A", "2000-01-01", "F", "a@x.com", exHash "pw", "face", none⟩)], ["00001"]⟩
    "B" "2001-01-01" "M" "A@X.COM " "pw2" "face").1
  have hc2 := (claim_C6 exHash (fun _ => 42) 1700000000 (fun _ => .failed)
    ⟨[], []⟩ "N" "2000-01-01" "M" "n@x.com" "pw" "face").2.1
  exact ⟨by decide, hc1 (by decide), by decide, rfl, hc2 (by decide) rfl⟩

/-- C7 (amended): a second registration whose email equals a registered
user's email up to letter case is rejected with the state untouched; a
registration with a fresh email (and successful capture) succeeds and
returns the generated id; ids drawn by the collision-checked loop are
five zero-padded decimal digits; and the generated id is distinct from
every existing id unless the 100000-retry budget was exhausted, in which
case it is the timestamp fallback `str(int(timestamp))[-5:]`, which may
collide with an existing id. -/
theorem claim_C7 (h : String → String) (rand : Nat → Nat) (ts : Nat)
    (capture : String → CaptureResult) (st : SysState)
    (nm dob gender email password : String) :
    ((∃ u ∈ st.usersFile, lowerStr (pyStrip u.2.email) = lowerStr (pyStrip email)) →
      register_user h rand ts capture st nm dob gender email password "face" =
        (st, .duplicate)) ∧
    ((∀ u ∈ st.usersFile, lowerStr (pyStrip u.2.email) ≠ lowerStr (pyStrip email)) →
      capture (generate_user_id rand ts (st.usersFile.map (fun e => e.1))) = .ok →
      (register_user h rand ts capture st nm dob gender email password "face").2 =
        .ok (generate_user_id rand ts (st.usersFile.map (fun e => e.1)))) ∧
    (∀ n : Nat, (pad5 n).length = 5 ∧ ∀ c ∈ (pad5 n).toList, c.isDigit = true) ∧
    ((st.usersFile.map (fun e => e.1)).contains
        (generate_user_id rand ts (st.usersFile.map (fun e => e.1))) = true →
      generate_user_id rand ts (st.usersFile.map (fun e => e.1)) = fallbackId ts) := by
  refine ⟨?_, ?_, pad5_five_digits, ?_⟩
  · rintro ⟨u, hu, heq⟩
    apply register_user_dup
    exact List.any_eq_true.mpr ⟨u, hu, by simp [heq]⟩
  · intro hfresh hcap
    have hdup : dupEmail st.usersFile email = false := by
      cases hdd : dupEmail st.usersFile email
      · rfl
      · obtain ⟨u, hu, hbeq⟩ := List.any_eq_true.mp hdd
        exact absurd (by simpa using hbeq) (hfresh u hu)
    rw [register_user_face_ok h rand ts capture st nm dob gender email password hdup hcap]
  · exact genLoop_collide_fallback rand ts _ 100001 0

/-- The registered user colliding with the fallback id of the C7
counterexample. -/
def exBobRec : UserRec := ⟨"Bob", "1999-01-01", "M", "b@x.com", exHash "pw", "face", none⟩

/-- A registry already holding user id `00007`. -/
def exUsersB : Registry := [("00007", exBobRec)]

/-- A random stream that always draws 7 (every draw collides with the
registered id `00007`). -/
def exRand7 : Nat → Nat := fun _ => 7

theorem gen7_fallback :
    generate_user_id exRand7 1700000007 (exUsersB.map (fun e => e.1)) = "00007" := by
  have hcol : ∀ a : Nat,
      ((exUsersB.map (fun e => e.1)).contains (pad5 (exRand7 a % 100000))) = true := by
    intro a
    show ((exUsersB.map (fun e => e.1)).contains (pad5 (7 % 100000))) = true
    decide
  rw [generate_user_id_exhaust exRand7 1700000007 _ hcol]
  decide

/-- Counterexample to C7 as stated: registering a fresh email against the
registry holding id `00007`, with a random stream that collides on every
draw and timestamp 1700000007, succeeds — but the returned id is the
timestamp fallback `"00007"`, which is NOT distinct from the existing id. -/
theorem claim_C7_counterexample :
    (∀ u ∈ exUsersB, lowerStr (pyStrip u.2.email) ≠ lowerStr (pyStrip "a@x.com")) ∧
    (register_user exHash exRand7 1700000007 (fun _ => .ok) ⟨exUsersB, ["00007"]⟩
        "N" "2000-01-01" "F" "a@x.com" "pw2" "face").2 = .ok "00007" ∧
    (exUsersB.map (fun e => e.1)).contains "00007" = true := by
  have hdup : dupEmail exUsersB "a@x.com" = false := by decide
  refine ⟨by decide, ?_, by decide⟩
  rw [register_user_face_ok exHash exRand7 1700000007 (fun _ => .ok) ⟨exUsersB, ["00007"]⟩
    "N" "2000-01-01" "F" "a@x.com" "pw2" hdup rfl]
  rw [gen7_fallback]

/-- Witness for C7 (amended): the claim's conjuncts applied concretely —
a case-variant duplicate is rejected with the state untouched, a fresh
email registers as `.ok` with the generated id, a drawn id has five
digits, and the collision branch of the concrete exhausted run returns
the timestamp fallback. -/
theorem claim_C7_witness :
    register_user exHash exRand7 1700000007 (fun _ => .ok) ⟨exUsersB, ["00007"]⟩
        "N" "2000-01-01" "F" "B@X.COM" "pw2" "face" =
      (⟨exUsersB, ["00007"]⟩, .duplicate) ∧
    (register_user exHash exRand7 1700000007 (fun _ => .ok) ⟨exUsersB, ["00007"]⟩
        "N" "2000-01-01" "F" "a@x.com" "pw2" "face").2 =
      .ok (generate_user_id exRand7 1700000007 (exUsersB.map (fun e => e.1))) ∧
    ((pad5 7).length = 5 ∧ ∀ c ∈ (pad5 7).toList, c.isDigit = true) ∧
    generate_user_id exRand7 1700000007 (exUsersB.map (fun e => e.1)) =
      fallbackId 1700000007 := by
  have hc1 := (claim_C7 exHash exRand7 1700000007 (fun _ => .ok) ⟨exUsersB, ["00007"]⟩
    "N" "2000-01-01" "F" "B@X.COM" "pw2").1
  have hc2 := (claim_C7 exHash exRand7 1700000007 (fun _ => .ok) ⟨exUsersB, ["00007"]⟩
    "N" "2000-01-01" "F" "a@x.com" "pw2").2.1
  have hc3 := (claim_C7 exHash exRand7 1700000007 (fun _ => .ok) ⟨exUsersB, ["00007"]⟩
    "N" "2000-01-01" "F" "a@x.com" "pw2").2.2.1 7
  have hc4 := (claim_C7 exHash exRand7 1700000007 (fun _ => .ok) ⟨exUsersB, ["00007"]⟩
    "N" "2000-01-01" "F" "a@x.com" "pw2").2.2.2
  refine ⟨hc1 ⟨("00007", exBobRec), List.mem_singleton.mpr rfl, by decide⟩,
    hc2 (by decide) rfl, hc3, hc4 ?_⟩
  rw [gen7_fallback]
  decide

/-! ## Password authentication (claims C8, C10) -/

theorem login_password_reg (h : String → String) (users : Registry) (ident pw : String)
    (hadm : is_admin (pyStrip ident) pw = false) :
    login_password h users ident pw =
      (match findAccount users (pyStrip ident) with
        | some e => if e.2.password == h pw then some e.1 else none
        | none => none) := by
  simp only [login_password, hadm, Bool.false_eq_true, if_false]

/-- C8: password authentication checks the fixed administrative pair first
and succeeds without consulting the registry when it matches; otherwise
the identifier is matched as either the numeric id or the registered
email, authentication succeeds exactly when the stored digest equals the
digest of the submitted password (returning the matched user), and any
other password is rejected. -/
theorem claim_C8 (h : String → String) (users : Registry) (ident pw : String) :
    (is_admin (pyStrip ident) pw = true → login_password h users ident pw = some "Admin") ∧
    (is_admin (pyStrip ident) pw = false →
      ((∃ sid, login_password h users ident pw = some sid) ↔
        (∃ uid u, findAccount users (pyStrip ident) = some (uid, u) ∧ u.password = h pw))) ∧
    (is_admin (pyStrip ident) pw = false →
      ∀ (uid : String) (u : UserRec), findAccount users (pyStrip ident) = some (uid, u) →
        u.password = h pw → login_password h users ident pw = some uid) ∧
    (is_admin (pyStrip ident) pw = false →
      ∀ (uid : String) (u : UserRec), findAccount users (pyStrip ident) = some (uid, u) →
        u.password ≠ h pw → login_password h users ident pw = none) := by
  refine ⟨?_, ?_, ?_, ?_⟩
  · intro hadm
    simp [login_password, hadm]
  · intro hadm
    rw [login_password_reg h users ident pw hadm]
    cases hf : findAccount users (pyStrip ident) with
    | none => simp
    | some e =>
      obtain ⟨uid, u⟩ := e
      by_cases hp : (u.password == h pw) = true
      · simp only [hp, if_true]
        constructor
        · intro _
          exact ⟨uid, u, rfl, by simpa using hp⟩
        · intro _
          exact ⟨uid, rfl⟩
      · simp only [Bool.not_eq_true] at hp
        simp only [hp, Bool.false_eq_true, if_false]
        constructor
        · rintro ⟨sid, hsid⟩
          exact absurd hsid (by simp)
        · rintro ⟨uid', u', he, hpw⟩
          injection he with he1
          injection he1 with he2 he3
          subst he2; subst he3
          rw [hpw] at hp
          exact absurd hp (by simp)
  · intro hadm uid u hf hpw
    rw [login_password_reg h users ident pw hadm, hf]
    simp [hpw]
  · intro hadm uid u hf hne
    rw [login_password_reg h users ident pw hadm, hf]
    simp only [beq_eq_false_iff_ne, ne_eq]
    rw [if_neg (by simpa using hne)]

/-- The registered user of the spec's §8 authentication scenario. -/
def exAliceRec : UserRec :=
  ⟨"Alice", "2000-01-01", "F", "a@x.com", exHash "Passw0rd!", "face", none⟩

/-- A registry holding only that user, under id `00001`. -/
def exUsersA : Registry := [("00001", exAliceRec)]

/-- Witness for C8: the spec's scenario — the admin pair succeeds without
any registry entry, the user authenticates by email and by id with the
correct password, and the wrong password is rejected. -/
theorem claim_C8_witness :
    login_password exHash exUsersA "Admin" "Admin@123" = some "Admin" ∧
    login_password exHash exUsersA "a@x.com" "Passw0rd!" = some "00001" ∧
    login_password exHash exUsersA "00001" "Passw0rd!" = some "00001" ∧
    login_password exHash exUsersA "a@x.com" "wrong" = none := by
  refine ⟨(claim_C8 exHash exUsersA "Admin" "Admin@123").1 (by decide), ?_, ?_, ?_⟩
  · exact (claim_C8 exHash exUsersA "a@x.com" "Passw0rd!").2.2.1 (by decide) "00001"
      exAliceRec (by decide) (by decide)
  · exact (claim_C8 exHash exUsersA "00001" "Passw0rd!").2.2.1 (by decide) "00001"
      exAliceRec (by decide) (by decide)
  · exact (claim_C8 exHash exUsersA "a@x.com" "wrong").2.2.2 (by decide) "00001"
      exAliceRec (by decide) (by decide)

/-- C10: email matching during password authentication is exact
(case-sensitive) while duplicate detection at registration is
case-insensitive: for a user registered with email `E` in a registry
whose ids and emails do not collide with the case variant `Ev`,
authenticating with `Ev` is rejected even with the correct password,
while registering `Ev` as a new account is rejected as a duplicate with
the state untouched. -/
theorem claim_C10 (h : String → String) (rand : Nat → Nat) (ts : Nat)
    (capture : String → CaptureResult) (users : Registry) (folders : List String)
    (nm dob gender password bt E Ev pw : String) (u : String × UserRec)
    (hmem : u ∈ users) (hemail : u.2.email = E)
    (hEstrip : pyStrip E = E) (hEvstrip : pyStrip Ev = Ev)
    (hlow : lowerStr Ev = lowerStr E)
    (hadmin : is_admin Ev pw = false)
    (hnouid : ∀ v ∈ users, v.1 ≠ Ev)
    (hnoemail : ∀ v ∈ users, v.2.email ≠ Ev) :
    login_password h users Ev pw = none ∧
    register_user h rand ts capture ⟨users, folders⟩ nm dob gender Ev password bt =
      (⟨users, folders⟩, .duplicate) := by
  constructor
  · rw [login_password_reg h users Ev pw (by rwa [hEvstrip])]
    have hfind : findAccount users (pyStrip Ev) = none := by
      rw [hEvstrip]
      apply List.find?_eq_none.mpr
      intro e he
      simp only [Bool.or_eq_true, beq_iff_eq, not_or]
      exact ⟨fun hx => hnouid e he hx.symm, fun hx => hnoemail e he hx.symm⟩
    rw [hfind]
  · apply register_user_dup
    unfold dupEmail
    apply List.any_eq_true.mpr
    refine ⟨u, hmem, ?_⟩
    rw [hemail, hEstrip, hEvstrip, hlow]
    exact beq_self_eq_true _

/-- Witness for C10: with the user registered as `a@x.com`, the case
variant `A@x.com` cannot log in even with the correct password
`Passw0rd!`, yet registering it as a new account is rejected as a
duplicate. -/
theorem claim_C10_witness :
    login_password exHash exUsersA "A@x.com" "Passw0rd!" = none ∧
    register_user exHash exRand7 1700000007 (fun _ => .ok) ⟨exUsersA, ["00001"]⟩
        "N" "2001-01-01" "M" "A@x.com" "Passw0rd!" "face" =
      (⟨exUsersA, ["00001"]⟩, .duplicate) := by
  exact claim_C10 exHash exRand7 1700000007 (fun _ => .ok) exUsersA ["00001"]
    "N" "2001-01-01" "M" "Passw0rd!" "face" "a@x.com" "A@x.com" "Passw0rd!"
    ("00001", exAliceRec) (by decide) (by decide) (by decide) (by decide)
    (by decide) (by decide) (by decide) (by decide)

end EHRSys
